import Mathlib

/-!
Verification of the zenote productivity app's date-keyed persistence layer.

Shallow embedding conventions:
* A point in time is an `Int` counting minutes since the Unix epoch
  (1970-01-01 00:00 UTC, a Thursday).  The host timezone is a parameter
  `tz : Int`, the offset east of UTC in minutes, so that
  local time = UTC time + tz (JavaScript's `getTimezoneOffset()` is `-tz`).
  A fixed offset is assumed (no DST transitions inside a computation).
* Calendar dates are recovered from day numbers with the standard
  civil-from-days algorithm, mirroring what the host `Date` object exposes
  through `getFullYear`/`getMonth`/`getDate`/`getDay` and `toISOString`.
* `Number.prototype.toFixed(1)` is modelled exactly per IEEE-754 and
  ECMA-262: the elapsed-hours quotient `m/60` is first rounded to the
  nearest double (round half to even at 53 significant bits; `dblScale`
  finds the binade), and `toFixed` then picks the integer count of tenths
  closest to that double, ties towards the larger count.  In particular
  531 elapsed minutes give the double 8.8499999999999996… and hence
  `"8.8"`, not `"8.9"`.
-/

namespace Zenote

/-- `String.prototype.padStart(2, "0")` applied to a numeral. -/
def pad2 (n : Nat) : String :=
  if n < 10 then "0" ++ toString n else toString n

/-- Four-digit zero padding, as in the year field of `Date.prototype.toISOString`
for years 0..9999. -/
def pad4 (n : Nat) : String :=
  if n < 10 then "000" ++ toString n
  else if n < 100 then "00" ++ toString n
  else if n < 1000 then "0" ++ toString n
  else toString n

/-- A civil (proleptic Gregorian) calendar date: `month` is 1..12, `day` 1..31. -/
structure CivilDate where
  year : Int
  month : Nat
  day : Nat
deriving DecidableEq, Repr

/-- Convert a day number (days since 1970-01-01) to its civil date, the
calendar mapping that the host `Date` getters expose (Howard Hinnant's
`civil_from_days` algorithm). -/
def civilFromDays (z0 : Int) : CivilDate :=
  let z := z0 + 719468
  let era := z / 146097
  let doe := (z - era * 146097).toNat
  let yoe := (doe - doe / 1460 + doe / 36524 - doe / 146096) / 365
  let y := (yoe : Int) + era * 400
  let doy := doe - (365 * yoe + yoe / 4 - yoe / 100)
  let mp := (5 * doy + 2) / 153
  let d := doy - (153 * mp + 2) / 5 + 1
  let m := if mp < 10 then mp + 3 else mp - 9
  { year := y + (if m ≤ 2 then 1 else 0), month := m, day := d }

/-- Render a civil date the way the sleep module's template literal
`${year}-${month}-${day}` does: the year printed as-is, month and day
zero-padded to two digits. -/
def renderLocalDate (c : CivilDate) : String :=
  toString c.year ++ "-" ++ pad2 c.month ++ "-" ++ pad2 c.day

/-- Render a civil date the way `date.toISOString().split('T')[0]` does
for years 0..9999: year zero-padded to four digits, month and day to two. -/
def renderISODate (c : CivilDate) : String :=
  pad4 c.year.toNat ++ "-" ++ pad2 c.month ++ "-" ++ pad2 c.day

/-- Local day number of an instant `t` under timezone offset `tz`. -/
def localDays (t tz : Int) : Int :=
  (t + tz) / 1440

namespace Sleep

/-- `getLocalDateKey` (sleep.js:67-74): the local calendar date of "now",
rendered year-month-day from the local `Date` getters, explicitly avoiding
a UTC conversion.  `t` is the current instant, `tz` the timezone offset. -/
def getLocalDateKey (t tz : Int) : String :=
  renderLocalDate (civilFromDays (localDays t tz))

/-- `getDay()` of a local day number: 0 (Sunday) .. 6 (Saturday).
Day 0 (1970-01-01) was a Thursday, i.e. 4. -/
def dayOfWeek (ld : Int) : Int :=
  (ld + 4) % 7

/-- The `diff` computed in `getWeekStartDate` (sleep.js:84): days to subtract
from today to reach the most recent Monday. -/
def mondayDiff (ld : Int) : Int :=
  if dayOfWeek ld = 0 then 6 else dayOfWeek ld - 1

/-- `getWeekStartDate` (sleep.js:80-89), expressed as the local day number of
the returned `Date` (which is local midnight of the most recent Monday). -/
def getWeekStartDays (t tz : Int) : Int :=
  localDays t tz - mondayDiff (localDays t tz)

/-- The instant (epoch minutes) held by the `Date` that `getWeekStartDate`
returns: local midnight of the Monday, i.e. UTC = local − tz. -/
def getWeekStartInstant (t tz : Int) : Int :=
  getWeekStartDays t tz * 1440 - tz

/-- `weekStart.toISOString().split('T')[0]` (sleep.js:96): the stored weekly
marker.  `toISOString` renders the *UTC* calendar date of the instant. -/
def weekStartKey (t tz : Int) : String :=
  renderISODate (civilFromDays (getWeekStartInstant t tz / 1440))

/-- The spec's words for `WeekKey` ("CalendarKey of the Monday beginning the
week", rendered from the local calendar date, never via UTC conversion).
Comparison target for the refinement claim about `weekStartKey`. -/
def specMondayCalendarKey (t tz : Int) : String :=
  renderLocalDate (civilFromDays (getWeekStartDays t tz))

end Sleep

namespace Journal

/-- `getLocalDateKey` (journal.js:58-61): shift the instant by
`-getTimezoneOffset()` minutes (i.e. by `+tz`) and take the UTC date of the
shifted instant via `toISOString().split('T')[0]`. -/
def getLocalDateKey (t tz : Int) : String :=
  renderISODate (civilFromDays ((t + tz) / 1440))

end Journal

namespace Sleep

/-- One persisted sleep record (sleep.js:446-451).  `duration` is the value of
`calculateDuration`: the string produced by `toFixed(1)`, modelled as the
number of tenths of an hour, with `none` standing for the `"NaN"` string that
results from an unparseable time. -/
structure SleepLog where
  date : String
  sleepTime : String
  wakeTime : String
  duration : Option Nat
deriving DecidableEq, Repr

/-- Split a character list on a separator (model of `String.split(':')`). -/
def splitCharsOn (c : Char) : List Char → List (List Char)
  | [] => [[]]
  | a :: rest =>
    if a = c then [] :: splitCharsOn c rest
    else
      match splitCharsOn c rest with
      | h :: t => (a :: h) :: t
      | [] => [[a]]

/-- The numeric value of a decimal digit character, `none` otherwise. -/
def digitVal? (c : Char) : Option Nat :=
  if c.isDigit then some (c.toNat - 48) else none

/-- Read a non-empty all-digit character list as a decimal number. -/
def charsToNat? (l : List Char) : Option Nat :=
  match l with
  | [] => none
  | _ => l.foldl (fun acc c => do
      let a ← acc
      let d ← digitVal? c
      pure (10 * a + d)) (some 0)

/-- Parse an `"HH:MM"` clock-time string into minutes past midnight, as
`new Date("2000-01-01T" + s + ":00")` does; `none` models an Invalid Date. -/
def parseClock (s : String) : Option Nat :=
  match (splitCharsOn ':' s.data).map charsToNat? with
  | [some h, some m] => if h < 24 && m < 60 then some (60 * h + m) else none
  | _ => none

/-- The scaling exponent that brings `m/60` into the binade `[2^52, 2^53)`:
the smallest `k` with `2^52 ≤ (m * 2^k) / 60`, so that rounding `m * 2^k / 60`
to an integer is exactly rounding `m/60` to 53 significant bits — the IEEE-754
double produced by the program's `durationMs / 3600000`.  (For the reachable
range `1 ≤ m ≤ 1440` the search below index 71 always succeeds.) -/
def dblScale (m : Nat) : Nat :=
  ((List.range 71).find? (fun k => 60 * 2 ^ 52 ≤ m * 2 ^ k)).getD 70

/-- Round `num / 60` to the nearest integer, ties to even: the IEEE-754
round-to-nearest-even step of the division. -/
def roundHalfEven60 (num : Nat) : Nat :=
  if 60 < 2 * (num % 60) then num / 60 + 1
  else if 2 * (num % 60) < 60 then num / 60
  else num / 60 + (num / 60) % 2

/-- `(m / 60).toFixed(1)` for `m` elapsed minutes, as the integer count of
tenths of an hour in the rendered string: the quotient is first rounded to
the nearest double `M / 2^k` (53-bit round-half-even), and `toFixed(1)` then
returns the integer `n` minimising `|n/10 − M/2^k|`, ties to the larger `n`
(ECMA-262), i.e. `n = ⌊10·M/2^k + 1/2⌋`. -/
def toFixed1 (m : Nat) : Nat :=
  if m = 0 then 0
  else (20 * roundHalfEven60 (m * 2 ^ dblScale m) + 2 ^ dblScale m) / 2 ^ (dblScale m + 1)

/-- `calculateDuration` (sleep.js:485-495): both times are placed on
2000-01-01; if the wake instant is strictly earlier than the sleep instant the
wake date is moved one day forward; the difference is rendered in hours with
one decimal via `toFixed(1)` (returned as tenths). -/
def calculateDuration (sleepTime wakeTime : String) : Option Nat := do
  let s ← parseClock sleepTime
  let w ← parseClock wakeTime
  let w2 := if w < s then w + 1440 else w
  pure (toFixed1 (w2 - s))

/-- `Array.prototype.findIndex`: index of the first element satisfying `p`. -/
def findIndex (p : α → Bool) : List α → Option Nat
  | [] => none
  | a :: l => if p a then some 0 else (findIndex p l).map (· + 1)

/-- `saveSleepLog` (sleep.js:431-480), its store mutation: if either time
field is empty the save is blocked (error modal) and the store is untouched;
otherwise a log keyed by today's local date is built and either replaces the
existing log with the same date (`findIndex` hit) or is pushed at the end. -/
def saveSleepLog (logs : List SleepLog) (sleepTime wakeTime : String)
    (t tz : Int) : List SleepLog :=
  if sleepTime = "" || wakeTime = "" then logs
  else
    let log : SleepLog :=
      { date := getLocalDateKey t tz
        sleepTime := sleepTime
        wakeTime := wakeTime
        duration := calculateDuration sleepTime wakeTime }
    match findIndex (fun l => l.date = log.date) logs with
    | some i => logs.set i log
    | none => logs ++ [log]

/-- One slot of the weekly aggregation (sleep.js:515-519).  `duration` is
`parseFloat(log.duration)` for a stored log and the literal `0` otherwise
(`none` again standing for NaN). -/
structure DaySlot where
  date : String
  duration : Option Nat
  day : String
deriving DecidableEq, Repr

/-- The `daysInWeek` labels (sleep.js:503). -/
def daysInWeek : List String :=
  ["Mon", "Tue", "Wed", "Thu", "Fri", "Sat", "Sun"]

/-- `getLast7DaysData` (sleep.js:500-523): for i = 0..6, render the local
calendar date of weekStart + i days, look the key up in the store with
`Array.prototype.find`, and emit a slot with the stored duration or 0. -/
def getLast7DaysData (logs : List SleepLog) (t tz : Int) : List DaySlot :=
  (List.range 7).map fun (i : Nat) =>
    let ds := renderLocalDate (civilFromDays (getWeekStartDays t tz + (i : Int)))
    { date := ds
      duration :=
        match logs.find? (fun l => l.date = ds) with
        | some l => l.duration
        | none => some 0
      day := daysInWeek.getD i "" }

/-- The sleep tracker's persisted state: the `sleepLogs` array and the
`currentWeek` marker (`none` models the `null` of a missing key). -/
structure SleepState where
  sleepLogs : List SleepLog
  currentWeek : Option String
deriving DecidableEq, Repr

/-- `checkAndResetWeeklyData` (sleep.js:94-105): compute the week marker for
"now"; if no marker is stored or the stored one differs, clear the logs and
store the new marker; otherwise leave everything unchanged. -/
def checkAndResetWeeklyData (s : SleepState) (t tz : Int) : SleepState :=
  let weekStartKey := weekStartKey t tz
  if s.currentWeek ≠ some weekStartKey then
    { sleepLogs := [], currentWeek := some weekStartKey }
  else s

end Sleep

namespace Todo

/-- One quest/task (todo.js:76-84).  `streak` is present only on habits
(`none` models an absent JS property), `deadline` only on todos that set it. -/
structure Task where
  id : Nat
  title : String
  type : String
  notes : String
  priority : String
  createdAt : String
  completed : Bool
  streak : Option Nat
  deadline : Option String
deriving DecidableEq, Repr

/-- The gamified task-list state (todo.js:2-10).  `health`, `xp` and `level`
are JS numbers used only integrally; they are modelled as `Int`. -/
structure TState where
  todos : List Task
  dailies : List Task
  habits : List Task
  theme : String
  health : Int
  xp : Int
  level : Int
deriving DecidableEq, Repr

/-- The initial in-memory state (todo.js:2-10). -/
def initialState : TState :=
  { todos := [], dailies := [], habits := [], theme := "light"
    health := 100, xp := 0, level := 1 }

/-- `handleAddTask` (todo.js:65-105): an empty (trimmed) title blocks the add;
otherwise the new task is pushed on the list selected by its type string
(anything other than `"todo"`/`"daily"` is a habit, which starts `streak` at
0; a todo keeps a non-empty deadline), and 3 XP are gained, capped at 100.
No level-up check happens here. -/
def handleAddTask (s : TState) (title ty notes priority deadline createdAt : String)
    (now : Nat) : TState :=
  if title.trim = "" then s
  else
    let task : Task :=
      { id := now, title := title.trim, type := ty, notes := notes
        priority := priority, createdAt := createdAt, completed := false
        streak := none, deadline := none }
    let s' :=
      if ty = "todo" then
        { s with todos := s.todos ++
            [if deadline ≠ "" then { task with deadline := some deadline } else task] }
      else if ty = "daily" then { s with dailies := s.dailies ++ [task] }
      else { s with habits := s.habits ++ [{ task with streak := some 0 }] }
    { s' with xp := min 100 (s'.xp + 3) }

/-- `find` the first task matching `p` and replace it by `f` of it, as the
source's find-then-mutate does; `none` when no task matches (in which case the
source dereferences `undefined` and throws a TypeError). -/
def updateFirst (p : Task → Bool) (f : Task → Task) : List Task → Option (List Task)
  | [] => none
  | a :: l =>
    if p a then some (f a :: l)
    else (updateFirst p f l).map (a :: ·)

/-- The XP awarded by `completeTask` per task type (todo.js:114/119/124). -/
def xpGain (ty : String) : Int :=
  if ty = "todo" then 8 else if ty = "daily" then 5 else 2

/-- The level-up check at the end of `completeTask` (todo.js:132-136). -/
def levelCheck (s : TState) : TState :=
  if 100 ≤ s.xp then { s with level := s.level + 1, xp := 0 } else s

/-- `completeTask` (todo.js:107-141): a todo is removed from the list (+8 XP);
a daily is marked completed (+5 XP); a habit gets its streak incremented
(+2 XP).  XP is capped at 100 on gain; reaching 100 levels up and resets XP to
0.  `none` models the TypeError thrown when a daily/habit id is not found. -/
def completeTask (s : TState) (ty : String) (id : Nat) : Option TState :=
  if ty = "todo" then
    some (levelCheck
      { s with todos := s.todos.filter (fun task => task.id ≠ id)
               xp := min 100 (s.xp + 8) })
  else if ty = "daily" then
    (updateFirst (fun task => task.id = id) (fun task => { task with completed := true })
        s.dailies).map
      fun ds => levelCheck { s with dailies := ds, xp := min 100 (s.xp + 5) }
  else
    (updateFirst (fun task => task.id = id) (fun task => { task with streak := task.streak.map (· + 1) })
        s.habits).map
      fun hs => levelCheck { s with habits := hs, xp := min 100 (s.xp + 2) }

/-- `deleteTask` (todo.js:143-161): filter the id out of the selected list;
deleting a todo costs 5 health, floored at 0. -/
def deleteTask (s : TState) (ty : String) (id : Nat) : TState :=
  if ty = "todo" then
    { s with todos := s.todos.filter (fun task => task.id ≠ id)
             health := max 0 (s.health - 5) }
  else if ty = "daily" then
    { s with dailies := s.dailies.filter (fun task => task.id ≠ id) }
  else
    { s with habits := s.habits.filter (fun task => task.id ≠ id) }

end Todo

/-- A JSON value, the result type of a successful `JSON.parse`. -/
inductive Json where
  | null : Json
  | bool (b : Bool) : Json
  | num (n : Int) : Json
  | str (s : String) : Json
  | arr (elems : List Json) : Json
  | obj (fields : List (String × Json)) : Json

/-- JavaScript truthiness of a parsed JSON value (`NaN` cannot be produced by
`JSON.parse`, and the integral model ignores non-integral numbers, which no
claim touches). -/
def Json.truthy : Json → Bool
  | .null => false
  | .bool b => b
  | .num n => n ≠ 0
  | .str s => s ≠ ""
  | .arr _ => true
  | .obj _ => true

/-- The outcome of `localStorage.getItem(k)` followed by `JSON.parse`:
`absent` models a missing key (`getItem` returns `null`, and
`JSON.parse(null)` yields the JSON value `null`); `malformed` models a stored
string that is not valid JSON, on which `JSON.parse` throws a `SyntaxError`
(ECMA-262 behaviour of the host primitive). -/
inductive StoredVal where
  | absent : StoredVal
  | malformed : StoredVal
  | value (j : Json) : StoredVal

/-- `JSON.parse(localStorage.getItem(key))` as an `Except`: a thrown
`SyntaxError` is `error`, otherwise the parsed value. -/
def getAndParse : StoredVal → Except Unit Json
  | .absent => .ok .null
  | .malformed => .error ()
  | .value j => .ok j

/-- `JSON.parse(localStorage.getItem('sleepLogs')) || []` (sleep.js:41):
the raw value the `sleepLogs` module variable is initialised with. -/
def loadSleepLogs (v : StoredVal) : Except Unit Json := do
  let j ← getAndParse v
  pure (if j.truthy then j else .arr [])

/-- `JSON.parse(localStorage.getItem('currentWeek')) || null` (sleep.js:42). -/
def loadCurrentWeek (v : StoredVal) : Except Unit Json := do
  let j ← getAndParse v
  pure (if j.truthy then j else .null)

/-- `loadFromStorage` (todo.js:265-282) at the guard level: parse
`questifyData`; when the parsed value is falsy (in particular when the key is
absent) the `if (data)` guard skips every assignment and the state keeps its
initial value (`none`); otherwise the parsed object is handed to the field
assignments (`some j`). -/
def loadQuestify (v : StoredVal) : Except Unit (Option Json) := do
  let j ← getAndParse v
  pure (if j.truthy then some j else none)

/-! ## Helper lemmas -/

/-- A four-digit year prints identically with and without zero padding. -/
theorem toString_eq_pad4_of_four_digits (y : Int) (h1 : 1000 ≤ y) (h2 : y ≤ 9999) :
    toString y = pad4 y.toNat := by
  obtain ⟨n, rfl⟩ : ∃ n : Nat, y = (n : Int) := ⟨y.toNat, (Int.toNat_of_nonneg (by omega)).symm⟩
  have hn1 : 1000 ≤ n := by exact_mod_cast h1
  have hn2 : n ≤ 9999 := by exact_mod_cast h2
  unfold pad4
  rw [Int.toNat_ofNat, if_neg (by omega), if_neg (by omega), if_neg (by omega)]
  rfl

/-- For four-digit years the sleep module's local rendering and the
`toISOString` rendering of the same civil date coincide. -/
theorem renderLocalDate_eq_renderISODate (c : CivilDate)
    (h1 : 1000 ≤ c.year) (h2 : c.year ≤ 9999) :
    renderLocalDate c = renderISODate c := by
  unfold renderLocalDate renderISODate
  rw [toString_eq_pad4_of_four_digits c.year h1 h2]

/-- `getWeekStartDate`'s Monday arithmetic collapses to flooring the local day
number to the previous value congruent to 4 mod 7 (day 4 = 1970-01-05 was a
Monday). -/
theorem getWeekStartDays_eq_floor (t tz : Int) :
    Sleep.getWeekStartDays t tz = localDays t tz - (localDays t tz + 3) % 7 := by
  unfold Sleep.getWeekStartDays Sleep.mondayDiff Sleep.dayOfWeek
  split <;> omega

/-- A parseable clock-time is strictly below 24 hours of minutes. -/
theorem parseClock_lt_1440 (s : String) (m : Nat)
    (h : Sleep.parseClock s = some m) : m < 1440 := by
  unfold Sleep.parseClock at h
  split at h
  · split_ifs at h with hc
    · rw [Option.some_inj] at h
      subst h
      simp only [Bool.and_eq_true, decide_eq_true_eq] at hc
      omega
  · exact absurd h (by simp)

/-- For elapsed minutes in the reachable range, the binade scaling is at
least 2^5, which is all the precision the tenths bound below needs. -/
theorem dblScale_ge_five (m : Nat) (h2 : m ≤ 1440) : 5 ≤ Sleep.dblScale m := by
  have key : ∀ o, (List.range 71).find? (fun k => 60 * 2 ^ 52 ≤ m * 2 ^ k) = o →
      5 ≤ o.getD 70 := by
    intro o ho
    match o with
    | none => norm_num [Option.getD]
    | some k =>
      have hp := List.find?_some ho
      simp only [decide_eq_true_eq] at hp
      simp only [Option.getD_some]
      by_contra hlt
      push_neg at hlt
      have h5 : 2 ^ k ≤ 2 ^ 4 := Nat.pow_le_pow_right (by norm_num) (by omega)
      have hb : m * 2 ^ k ≤ 1440 * 2 ^ 4 := Nat.mul_le_mul h2 h5
      norm_num at hp hb
      omega
  exact key _ rfl

/-- `toFixed1` really is a one-decimal rounding: the rendered count of tenths
of an hour is within half a tenth (3 minutes, plus the sub-minute double
error) of the elapsed minutes. -/
theorem toFixed1_close (m : Nat) (hm : m ≤ 1440) :
    6 * Sleep.toFixed1 m ≤ m + 3 ∧ m ≤ 6 * Sleep.toFixed1 m + 3 := by
  by_cases h0 : m = 0
  · subst h0
    exact ⟨by decide, by decide⟩
  · have hk : 5 ≤ Sleep.dblScale m := dblScale_ge_five m hm
    unfold Sleep.toFixed1
    rw [if_neg h0]
    have hsucc : 2 ^ (Sleep.dblScale m + 1) = 2 * 2 ^ Sleep.dblScale m := by
      rw [pow_succ, Nat.mul_comm]
    rw [hsucc]
    have hP32 : 32 ≤ 2 ^ Sleep.dblScale m := by
      calc (32 : Nat) = 2 ^ 5 := by norm_num
        _ ≤ 2 ^ Sleep.dblScale m := Nat.pow_le_pow_right (by norm_num) hk
    generalize 2 ^ Sleep.dblScale m = P at *
    have hMb : m * P ≤ 60 * Sleep.roundHalfEven60 (m * P) + 30 ∧
        60 * Sleep.roundHalfEven60 (m * P) ≤ m * P + 30 := by
      unfold Sleep.roundHalfEven60
      split_ifs <;> omega
    have hnd := Nat.div_add_mod (20 * Sleep.roundHalfEven60 (m * P) + P) (2 * P)
    have hrem : (20 * Sleep.roundHalfEven60 (m * P) + P) % (2 * P) < 2 * P :=
      Nat.mod_lt _ (by omega)
    rw [Nat.mul_assoc] at hnd
    constructor
    · have step : P * (6 * ((20 * Sleep.roundHalfEven60 (m * P) + P) / (2 * P))) <
          P * (m + 4) := by
        have e1 : P * (6 * ((20 * Sleep.roundHalfEven60 (m * P) + P) / (2 * P))) =
            6 * (P * ((20 * Sleep.roundHalfEven60 (m * P) + P) / (2 * P))) := by ring
        have e2 : P * (m + 4) = m * P + 4 * P := by ring
        rw [e1, e2]
        omega
      have := Nat.lt_of_mul_lt_mul_left step
      omega
    · have step : P * m <
          P * (6 * ((20 * Sleep.roundHalfEven60 (m * P) + P) / (2 * P)) + 4) := by
        have e1 : P * (6 * ((20 * Sleep.roundHalfEven60 (m * P) + P) / (2 * P)) + 4) =
            6 * (P * ((20 * Sleep.roundHalfEven60 (m * P) + P) / (2 * P))) + 4 * P := by
          ring
        have e2 : P * m = m * P := by ring
        rw [e1, e2]
        omega
      have := Nat.lt_of_mul_lt_mul_left step
      omega

/-! ## Claim theorems -/

/-- C1 (counterexample): at the documented edge case of equal sleep and wake
times, `calculateDuration "23:00" "23:00"` evaluates to 0.0 hours (0 tenths),
not to the 24.0 hours (240 tenths) the claim asserts: equal `Date` values make
`wake < sleep` false, so no day is added and the difference is zero. -/
theorem C1_counterexample :
    Sleep.calculateDuration "23:00" "23:00" = some 0 ∧
    Sleep.calculateDuration "23:00" "23:00" ≠ some 240 := by
  constructor
  · decide
  · decide

/-- C1 (amended): for every parseable clock-time, `calculateDuration` applied
to that time as both sleep and wake time yields 0.0 hours, not 24.0: equal
times take the same-day branch and the elapsed time is zero. -/
theorem C1_equal_times_yield_zero (s : String) (m : Nat)
    (h : Sleep.parseClock s = some m) :
    Sleep.calculateDuration s s = some 0 := by
  simp [Sleep.calculateDuration, h, Sleep.toFixed1]

/-- C1 (witness): the amended theorem evaluated at `"23:00"`. -/
theorem C1_witness : Sleep.calculateDuration "23:00" "23:00" = some 0 :=
  C1_equal_times_yield_zero "23:00" 1380 (by decide)

/-- C4: for every pair of parseable clock-times, `calculateDuration` computes
the elapsed minutes assuming the wake time falls on the next calendar day
exactly when wake < sleep and on the same day otherwise, and returns those
elapsed hours rounded to one decimal — the `toFixed(1)` rendering of the
IEEE-754 quotient, whose tenths count is always within half a tenth
(3 minutes) of the elapsed time. -/
theorem C4_duration_formula (st wt : String) (sm wm : Nat)
    (hs : Sleep.parseClock st = some sm) (hw : Sleep.parseClock wt = some wm) :
    Sleep.calculateDuration st wt =
      some (Sleep.toFixed1 (if wm < sm then wm + 1440 - sm else wm - sm)) ∧
    6 * Sleep.toFixed1 (if wm < sm then wm + 1440 - sm else wm - sm) ≤
      (if wm < sm then wm + 1440 - sm else wm - sm) + 3 ∧
    (if wm < sm then wm + 1440 - sm else wm - sm) ≤
      6 * Sleep.toFixed1 (if wm < sm then wm + 1440 - sm else wm - sm) + 3 := by
  have hsm := parseClock_lt_1440 st sm hs
  have hwm := parseClock_lt_1440 wt wm hw
  have helapsed : (if wm < sm then wm + 1440 - sm else wm - sm) ≤ 1440 := by
    split <;> omega
  refine ⟨?_, (toFixed1_close _ helapsed).1, (toFixed1_close _ helapsed).2⟩
  by_cases h : wm < sm <;>
    simp [Sleep.calculateDuration, hs, hw, h, Nat.add_sub_assoc]

/-- C4 (witness): Duration("22:00", "06:30") = 8.5 hours and
Duration("09:00", "17:00") = 8.0 hours; additionally the double-accurate
rounding at Duration("22:00", "06:51") (8 h 51 min, decimal 8.85 but double
8.8499999999999996…) yields 8.8, matching the program. -/
theorem C4_witness :
    Sleep.calculateDuration "22:00" "06:30" = some 85 ∧
    Sleep.calculateDuration "09:00" "17:00" = some 80 ∧
    Sleep.calculateDuration "22:00" "06:51" = some 88 :=
  ⟨(C4_duration_formula "22:00" "06:30" 1320 390 (by decide) (by decide)).1.trans (by decide),
   (C4_duration_formula "09:00" "17:00" 540 1020 (by decide) (by decide)).1.trans (by decide),
   (C4_duration_formula "22:00" "06:51" 1320 411 (by decide) (by decide)).1.trans (by decide)⟩

/-- C3: both modules' `getLocalDateKey` functions key a point in time by its
local calendar day: the key is invariant under any change of instant and
offset that preserves the local day number (in particular a date at 23:59
local time gets the same key as that day's local midnight, no matter where
the UTC day boundary falls); for four-digit years the two modules produce the
identical `YYYY-MM-DD` string. -/
theorem C3_local_date_key (t tz t' tz' : Int) :
    ((t + tz) / 1440 = (t' + tz') / 1440 →
      Sleep.getLocalDateKey t tz = Sleep.getLocalDateKey t' tz' ∧
      Journal.getLocalDateKey t tz = Journal.getLocalDateKey t' tz') ∧
    (1000 ≤ (civilFromDays ((t + tz) / 1440)).year →
      (civilFromDays ((t + tz) / 1440)).year ≤ 9999 →
      Sleep.getLocalDateKey t tz = Journal.getLocalDateKey t tz) ∧
    ((t + tz) % 1440 = 1439 →
      Sleep.getLocalDateKey t tz = Sleep.getLocalDateKey (t - 1439) tz) := by
  refine ⟨fun h => ?_, fun h1 h2 => ?_, fun h => ?_⟩
  · unfold Sleep.getLocalDateKey Journal.getLocalDateKey localDays
    rw [h]
    exact ⟨rfl, rfl⟩
  · unfold Sleep.getLocalDateKey Journal.getLocalDateKey localDays
    exact renderLocalDate_eq_renderISODate _ h1 h2
  · unfold Sleep.getLocalDateKey localDays
    have : (t - 1439 + tz) / 1440 = (t + tz) / 1440 := by omega
    rw [this]

/-- C3 (witness): at instant 1499 (1970-01-02 00:59 UTC) in offset −60
(UTC−1), the local time is 1970-01-01 23:59 — UTC has already rolled to the
next day — and both modules still key the record under the local day
1970-01-01, the same key as the local midnight of that day. -/
theorem C3_witness :
    Sleep.getLocalDateKey 1499 (-60) = Sleep.getLocalDateKey 0 0 ∧
    Sleep.getLocalDateKey 1499 (-60) = Journal.getLocalDateKey 1499 (-60) ∧
    Sleep.getLocalDateKey 1499 (-60) = Sleep.getLocalDateKey (1499 - 1439) (-60) := by
  have h := C3_local_date_key 1499 (-60) 0 0
  exact ⟨(h.1 (by decide)).1, h.2.1 (by decide) (by decide), h.2.2 (by decide)⟩

/-- C2 (counterexample): in a timezone east of UTC (offset +60 minutes) at
instant 5760 (Monday 1970-01-05 00:00 UTC, 01:00 local), the weekly-reset
marker `weekStartKey` is `"1970-01-04"` — the `toISOString` (UTC-converted)
date of the local Monday-midnight instant — while the local CalendarKey of
the most recent Monday is `"1970-01-05"`; the two differ, refuting the claim
that the stored WeekKey is never obtained via UTC conversion. -/
theorem C2_counterexample :
    Sleep.weekStartKey 5760 60 = "1970-01-04" ∧
    Sleep.specMondayCalendarKey 5760 60 = "1970-01-05" ∧
    Sleep.weekStartKey 5760 60 ≠ Sleep.specMondayCalendarKey 5760 60 := by
  refine ⟨by decide, by decide, by decide⟩

/-- C2 (amended): the stored WeekKey is the `toISOString` (UTC-date) rendering
of the local Monday-midnight instant.  For timezone offsets in (−24h, 0] the
UTC date of that instant is the local Monday itself, so (for four-digit
years) the stored key equals the local CalendarKey of the most recent Monday;
for offsets in (0, 24h) the UTC date is one day earlier, so the stored key
names the Sunday before that Monday. -/
theorem C2_weekkey_is_utc_rendering (t tz : Int) :
    (-1440 < tz → tz ≤ 0 →
      Sleep.weekStartKey t tz =
        renderISODate (civilFromDays (Sleep.getWeekStartDays t tz)) ∧
      (1000 ≤ (civilFromDays (Sleep.getWeekStartDays t tz)).year →
        (civilFromDays (Sleep.getWeekStartDays t tz)).year ≤ 9999 →
        Sleep.weekStartKey t tz = Sleep.specMondayCalendarKey t tz)) ∧
    (0 < tz → tz < 1440 →
      Sleep.weekStartKey t tz =
        renderISODate (civilFromDays (Sleep.getWeekStartDays t tz - 1))) := by
  refine ⟨fun ha hb => ?_, fun ha hb => ?_⟩
  · have hq : Sleep.getWeekStartInstant t tz / 1440 = Sleep.getWeekStartDays t tz := by
      unfold Sleep.getWeekStartInstant
      omega
    have hkey : Sleep.weekStartKey t tz =
        renderISODate (civilFromDays (Sleep.getWeekStartDays t tz)) := by
      unfold Sleep.weekStartKey
      rw [hq]
    refine ⟨hkey, fun h1 h2 => ?_⟩
    unfold Sleep.specMondayCalendarKey
    rw [hkey, renderLocalDate_eq_renderISODate _ h1 h2]
  · have hq : Sleep.getWeekStartInstant t tz / 1440 = Sleep.getWeekStartDays t tz - 1 := by
      unfold Sleep.getWeekStartInstant
      omega
    unfold Sleep.weekStartKey
    rw [hq]

/-- C2 (witness): the amended theorem evaluated at Monday 1970-01-05: with
offset 0 the stored key equals the Monday's local CalendarKey; with offset
+60 it equals the rendering of the previous day. -/
theorem C2_witness :
    Sleep.weekStartKey 5760 0 = Sleep.specMondayCalendarKey 5760 0 ∧
    Sleep.weekStartKey 5760 60 =
      renderISODate (civilFromDays (Sleep.getWeekStartDays 5760 60 - 1)) :=
  ⟨((C2_weekkey_is_utc_rendering 5760 0).1 (by decide) (by decide)).2 (by decide) (by decide),
   (C2_weekkey_is_utc_rendering 5760 60).2 (by decide) (by decide)⟩

/-- C8: the week-start key is stable across a Monday-aligned week: whenever
the local day of a second instant `t'` lies in the 7-day span starting at the
week-start day of `t` (same timezone offset), both instants derive the
identical week-start key. -/
theorem C8_weekkey_stable (t t' tz : Int)
    (h1 : Sleep.getWeekStartDays t tz ≤ localDays t' tz)
    (h2 : localDays t' tz < Sleep.getWeekStartDays t tz + 7) :
    Sleep.weekStartKey t' tz = Sleep.weekStartKey t tz := by
  have e1 := getWeekStartDays_eq_floor t tz
  have e2 := getWeekStartDays_eq_floor t' tz
  have hdays : Sleep.getWeekStartDays t' tz = Sleep.getWeekStartDays t tz := by omega
  unfold Sleep.weekStartKey Sleep.getWeekStartInstant
  rw [hdays]

/-- C8 (witness): Monday 1970-01-05 and Wednesday 1970-01-07 (offset 0) lie
in the same Monday-aligned span and produce the same week-start key. -/
theorem C8_witness : Sleep.weekStartKey 8640 0 = Sleep.weekStartKey 5760 0 :=
  C8_weekkey_stable 5760 8640 0 (by decide) (by decide)

/-- C5: the weekly aggregator returns exactly 7 slots labeled Mon..Sun in that
order, and the i-th slot carries the local CalendarKey of weekStart+i together
with the stored record's duration for that key, or the default 0 when no
record is stored.  The embedding is a pure function of the store, so it is
idempotent and cannot modify the store. -/
theorem C5_aggregator (logs : List Sleep.SleepLog) (t tz : Int) :
    (Sleep.getLast7DaysData logs t tz).length = 7 ∧
    (Sleep.getLast7DaysData logs t tz).map (fun s => s.day) =
      ["Mon", "Tue", "Wed", "Thu", "Fri", "Sat", "Sun"] ∧
    (∀ i : Nat, i < 7 →
      (Sleep.getLast7DaysData logs t tz).getD i ⟨"", none, ""⟩ =
        { date := renderLocalDate (civilFromDays (Sleep.getWeekStartDays t tz + (i : Int)))
          duration :=
            match logs.find? (fun l =>
                l.date = renderLocalDate
                  (civilFromDays (Sleep.getWeekStartDays t tz + (i : Int)))) with
            | some l => l.duration
            | none => some 0
          day := Sleep.daysInWeek.getD i "" }) := by
  refine ⟨rfl, rfl, fun i hi => ?_⟩
  interval_cases i <;> rfl

/-- C5 (witness): the aggregator on the empty store at the epoch instant. -/
theorem C5_witness :
    (Sleep.getLast7DaysData [] 0 0).length = 7 ∧
    (Sleep.getLast7DaysData [] 0 0).map (fun s => s.day) =
      ["Mon", "Tue", "Wed", "Thu", "Fri", "Sat", "Sun"] ∧
    (Sleep.getLast7DaysData [] 0 0).getD 0 ⟨"", none, ""⟩ =
      ⟨"1969-12-29", some 0, "Mon"⟩ := by
  have h := C5_aggregator [] 0 0
  exact ⟨h.1, h.2.1, (h.2.2 0 (by decide)).trans (by decide)⟩

/-- C6: the weekly-reset check clears the log collection and rewrites the
marker exactly when the stored marker is missing or differs from the current
week key; when the marker already equals the key the whole state is returned
unchanged; consequently the check is idempotent, so a week-boundary crossing
clears the collection exactly once. -/
theorem C6_weekly_reset (s : Sleep.SleepState) (t tz : Int) :
    (s.currentWeek ≠ some (Sleep.weekStartKey t tz) →
      Sleep.checkAndResetWeeklyData s t tz =
        ⟨[], some (Sleep.weekStartKey t tz)⟩) ∧
    (s.currentWeek = some (Sleep.weekStartKey t tz) →
      Sleep.checkAndResetWeeklyData s t tz = s) ∧
    Sleep.checkAndResetWeeklyData (Sleep.checkAndResetWeeklyData s t tz) t tz =
      Sleep.checkAndResetWeeklyData s t tz := by
  by_cases h : s.currentWeek = some (Sleep.weekStartKey t tz) <;>
    simp [Sleep.checkAndResetWeeklyData, h]

/-- C6 (witness): with no stored marker the check at Monday 1970-01-05 clears
the store and writes the marker; a second check with that marker in place
changes nothing. -/
theorem C6_witness :
    Sleep.checkAndResetWeeklyData ⟨[], none⟩ 5760 0 =
      ⟨[], some (Sleep.weekStartKey 5760 0)⟩ ∧
    Sleep.checkAndResetWeeklyData ⟨[], some (Sleep.weekStartKey 5760 0)⟩ 5760 0 =
      ⟨[], some (Sleep.weekStartKey 5760 0)⟩ :=
  ⟨(C6_weekly_reset ⟨[], none⟩ 5760 0).1 (by simp),
   (C6_weekly_reset ⟨[], some (Sleep.weekStartKey 5760 0)⟩ 5760 0).2.1 rfl⟩

/-- `findIndex` misses exactly when no element satisfies the predicate. -/
theorem findIndex_eq_none_iff (p : α → Bool) (l : List α) :
    Sleep.findIndex p l = none ↔ ∀ a ∈ l, p a = false := by
  induction l with
  | nil => simp [Sleep.findIndex]
  | cons a l ih =>
    by_cases h : p a <;> simp [Sleep.findIndex, h, Option.map_eq_none', ih]

/-- Replacing the element found by `findIndex` with one carrying the same
key leaves the list of keys unchanged. -/
theorem set_at_findIndex_map_date (b : Sleep.SleepLog) (l : List Sleep.SleepLog) :
    ∀ i, Sleep.findIndex (fun x => x.date = b.date) l = some i →
      (l.set i b).map (fun x => x.date) = l.map (fun x => x.date) := by
  induction l with
  | nil => intro i h; simp [Sleep.findIndex] at h
  | cons a l ih =>
    intro i h
    by_cases ha : a.date = b.date
    · simp [Sleep.findIndex, ha] at h
      subst h
      simp [ha]
    · simp [Sleep.findIndex, ha, Option.map_eq_some'] at h
      obtain ⟨j, hj, rfl⟩ := h
      simp [ih j hj]

/-- C7: saving a sleep log whose CalendarKey already exists in the store
replaces that record in place, leaving the list of stored keys (hence the
store size) unchanged; and every save — replacing or appending — preserves
the invariant of at most one record per CalendarKey. -/
theorem C7_save_preserves_key_invariant (logs : List Sleep.SleepLog)
    (st wt : String) (t tz : Int) :
    (st ≠ "" → wt ≠ "" →
      Sleep.getLocalDateKey t tz ∈ logs.map (fun l => l.date) →
      (Sleep.saveSleepLog logs st wt t tz).map (fun l => l.date) =
        logs.map (fun l => l.date) ∧
      (Sleep.saveSleepLog logs st wt t tz).length = logs.length) ∧
    ((logs.map (fun l => l.date)).Nodup →
      ((Sleep.saveSleepLog logs st wt t tz).map (fun l => l.date)).Nodup) := by
  unfold Sleep.saveSleepLog
  by_cases hg : st = "" ∨ wt = ""
  · constructor
    · intro h1 h2 _
      rcases hg with hg | hg
      · exact absurd hg h1
      · exact absurd hg h2
    · intro hnd
      simpa [hg] using hnd
  · push_neg at hg
    simp only [Bool.or_eq_true, decide_eq_true_eq, hg.1, hg.2, or_self, if_false]
    rcases hfi : Sleep.findIndex
        (fun l => l.date = Sleep.getLocalDateKey t tz) logs with _ | i
    · simp only [hfi]
      have hnone := (findIndex_eq_none_iff _ logs).mp hfi
      constructor
      · intro _ _ hmem
        rw [List.mem_map] at hmem
        obtain ⟨a, ha, hda⟩ := hmem
        have := hnone a ha
        simp [hda] at this
      · intro hnd
        rw [List.map_append]
        rw [List.nodup_append]
        refine ⟨hnd, by simp, ?_⟩
        intro x hx
        simp only [List.map_cons, List.map_nil, List.mem_singleton]
        intro hx1
        rw [List.mem_map] at hx
        obtain ⟨a, ha, hda⟩ := hx
        have := hnone a ha
        simp [hda, hx1] at this
    · simp only [hfi]
      have hmap := set_at_findIndex_map_date
        ⟨Sleep.getLocalDateKey t tz, st, wt, Sleep.calculateDuration st wt⟩ logs i hfi
      exact ⟨fun _ _ _ => ⟨hmap, by simp⟩, fun hnd => hmap ▸ hnd⟩

/-- C7 (witness): saving over an existing key (the epoch day 1970-01-01)
replaces in place: the key list and the size are unchanged and the one-per-key
invariant is kept. -/
theorem C7_witness :
    (Sleep.saveSleepLog [⟨"1970-01-01", "22:00", "06:30", some 85⟩]
        "23:00" "07:00" 0 0).map (fun l => l.date) = ["1970-01-01"] ∧
    (Sleep.saveSleepLog [⟨"1970-01-01", "22:00", "06:30", some 85⟩]
        "23:00" "07:00" 0 0).length = 1 ∧
    ((Sleep.saveSleepLog [⟨"1970-01-01", "22:00", "06:30", some 85⟩]
        "23:00" "07:00" 0 0).map (fun l => l.date)).Nodup := by
  have h := C7_save_preserves_key_invariant
    [⟨"1970-01-01", "22:00", "06:30", some 85⟩] "23:00" "07:00" 0 0
  have h1 := h.1 (by decide) (by decide) (by decide)
  exact ⟨h1.1.trans (by decide), h1.2, h.2 (by decide)⟩

/-- C9 (counterexample): a malformed stored value makes the load operations
raise — `JSON.parse` throws a `SyntaxError` and neither sleep.js:41-42 nor
todo.js:265-282 wraps the call in try/catch — contradicting the claim that no
load operation raises an error. -/
theorem C9_counterexample :
    loadSleepLogs .malformed = .error () ∧
    loadCurrentWeek .malformed = .error () ∧
    loadQuestify .malformed = .error () :=
  ⟨rfl, rfl, rfl⟩

/-- C9 (amended): a missing stored value defaults silently — the sleep-log
collection to the empty array, the week marker to null, and the task-list
loader skips every assignment leaving the initial state — but a malformed
stored value (invalid JSON) makes every load operation raise the
`SyntaxError` thrown by `JSON.parse`. -/
theorem C9_load_defaults :
    loadSleepLogs .absent = .ok (.arr []) ∧
    loadCurrentWeek .absent = .ok .null ∧
    loadQuestify .absent = .ok none ∧
    loadSleepLogs .malformed = .error () ∧
    loadCurrentWeek .malformed = .error () ∧
    loadQuestify .malformed = .error () :=
  ⟨rfl, rfl, rfl, rfl, rfl, rfl⟩

/-- C10: starting from health and xp within [0, 100], every task operation
keeps health in [0, 100] and xp in [0, 100]; moreover whenever `completeTask`
succeeds its resulting xp is strictly below 100, and whenever the xp gain
would reach the 100 cap the level is incremented by one and xp is reset to 0. -/
theorem C10_gamification_bounds (s : Todo.TState)
    (title ty notes prio dl ca : String) (now : Nat) (ty2 : String) (id : Nat)
    (hh0 : 0 ≤ s.health) (hh1 : s.health ≤ 100)
    (hx0 : 0 ≤ s.xp) (hx1 : s.xp ≤ 100) :
    (0 ≤ (Todo.handleAddTask s title ty notes prio dl ca now).health ∧
      (Todo.handleAddTask s title ty notes prio dl ca now).health ≤ 100 ∧
      0 ≤ (Todo.handleAddTask s title ty notes prio dl ca now).xp ∧
      (Todo.handleAddTask s title ty notes prio dl ca now).xp ≤ 100) ∧
    (∀ s2, Todo.completeTask s ty2 id = some s2 →
      0 ≤ s2.health ∧ s2.health ≤ 100 ∧ 0 ≤ s2.xp ∧ s2.xp < 100 ∧
      (100 ≤ s.xp + Todo.xpGain ty2 → s2.level = s.level + 1 ∧ s2.xp = 0)) ∧
    (0 ≤ (Todo.deleteTask s ty2 id).health ∧
      (Todo.deleteTask s ty2 id).health ≤ 100 ∧
      0 ≤ (Todo.deleteTask s ty2 id).xp ∧
      (Todo.deleteTask s ty2 id).xp ≤ 100) := by
  refine ⟨?_, ?_, ?_⟩
  · unfold Todo.handleAddTask
    split_ifs <;> first | omega | (simp; omega)
  · intro s2 h
    unfold Todo.completeTask at h
    split_ifs at h with h1 h2
    · rw [Option.some_inj] at h
      subst h
      rw [show Todo.xpGain ty2 = 8 from by simp [Todo.xpGain, h1]]
      unfold Todo.levelCheck
      split_ifs with hl <;> simp_all <;> omega
    · rw [Option.map_eq_some'] at h
      obtain ⟨ds, _, h⟩ := h
      subst h
      rw [show Todo.xpGain ty2 = 5 from by simp [Todo.xpGain, h1, h2]]
      unfold Todo.levelCheck
      split_ifs with hl <;> simp_all <;> omega
    · rw [Option.map_eq_some'] at h
      obtain ⟨hs2, _, h⟩ := h
      subst h
      rw [show Todo.xpGain ty2 = 2 from by simp [Todo.xpGain, h1, h2]]
      unfold Todo.levelCheck
      split_ifs with hl <;> simp_all <;> omega
  · unfold Todo.deleteTask
    split_ifs <;> simp <;> omega

/-- C10 (witness): from the initial state (health 100, xp 0, level 1), adding
a task and deleting a todo keep the counters in range; completing a todo from
xp 0 leaves xp at 8 < 100; completing a todo from xp 95 reaches the cap,
increments the level to 2 and resets xp to 0. -/
theorem C10_witness :
    (0 ≤ (Todo.handleAddTask Todo.initialState "a" "todo" "" "medium" "" "" 1).health ∧
      (Todo.handleAddTask Todo.initialState "a" "todo" "" "medium" "" "" 1).health ≤ 100 ∧
      0 ≤ (Todo.handleAddTask Todo.initialState "a" "todo" "" "medium" "" "" 1).xp ∧
      (Todo.handleAddTask Todo.initialState "a" "todo" "" "medium" "" "" 1).xp ≤ 100) ∧
    ((Todo.TState.mk [] [] [] "light" 100 8 1).xp < 100) ∧
    ((Todo.TState.mk [] [] [] "light" 100 0 2).level = Todo.initialState.level + 1 ∧
      (Todo.TState.mk [] [] [] "light" 100 0 2).xp = 0) ∧
    (0 ≤ (Todo.deleteTask Todo.initialState "todo" 1).health ∧
      (Todo.deleteTask Todo.initialState "todo" 1).health ≤ 100) := by
  have h := C10_gamification_bounds Todo.initialState "a" "todo" "" "medium" "" "" 1
    "todo" 5 (by decide) (by decide) (by decide) (by decide)
  have h95 := C10_gamification_bounds { Todo.initialState with xp := 95 }
    "a" "todo" "" "medium" "" "" 1 "todo" 5 (by decide) (by decide) (by decide) (by decide)
  refine ⟨h.1, ?_, ?_, h.2.2.1, h.2.2.2.1⟩
  · exact (h.2.1 (Todo.TState.mk [] [] [] "light" 100 8 1) rfl).2.2.2.1
  · exact (h95.2.1 (Todo.TState.mk [] [] [] "light" 100 0 2) rfl).2.2.2.2 (by decide)

end Zenote
